import Mathlib

/-!
Verification of the GOES-R ABI orthorectification routines in
`src/goes_ortho.py` (module `goes_ortho`).

The numeric code is numpy double-precision arithmetic.  We embed it in the
real numbers; an IEEE-754 NaN is modelled by `none : Option ℝ` wherever the
source can produce one (the square root of a negative discriminant in
`ABIangle2LonLat`, and masked DEM cells in `make_ortho_map`), and a defined
double by `some r`.  NaN propagation through arithmetic is modelled by the
corresponding `Option` plumbing.  The `xarray` dataset mutated by
`output_ortho_netcdf` is modelled by explicit state passing: the function
returns the updated dataset value.
-/

namespace GoesOrtho

open Real

/-- Degrees-to-radians conversion, `np.radians`: multiply by π / 180. -/
noncomputable def radiansOf (d : ℝ) : ℝ := d * (Real.pi / 180)

/-- Radians-to-degrees conversion, `np.degrees`: multiply by 180 / π. -/
noncomputable def degreesOf (r : ℝ) : ℝ := r * (180 / Real.pi)

/-! ### Forward transform: `ABIangle2LonLat` (src lines 18-43) -/

/-- Quadratic coefficient `a` from `ABIangle2LonLat`:
`sin(x)**2 + cos(x)**2 * (cos(y)**2 + (req**2/rpol**2) * sin(y)**2)`. -/
noncomputable def ABIa (x y req rpol : ℝ) : ℝ :=
  Real.sin x ^ 2 +
    Real.cos x ^ 2 * (Real.cos y ^ 2 + req ^ 2 / rpol ^ 2 * Real.sin y ^ 2)

/-- Quadratic coefficient `b` from `ABIangle2LonLat`: `-2*H*cos(x)*cos(y)`. -/
noncomputable def ABIb (x y H : ℝ) : ℝ := -2 * H * Real.cos x * Real.cos y

/-- Quadratic coefficient `c` from `ABIangle2LonLat`: `H**2 - req**2`. -/
def ABIc (H req : ℝ) : ℝ := H ^ 2 - req ^ 2

/-- Discriminant `b**2 - 4*a*c` of the quadratic in `rs` solved by
`ABIangle2LonLat`. -/
noncomputable def ABIdisc (x y H req rpol : ℝ) : ℝ :=
  ABIb x y H ^ 2 - 4 * ABIa x y req rpol * ABIc H req

/-- Forward transform `ABIangle2LonLat(x, y, H, req, rpol, lon_0_deg)`
(src lines 18-43): from scan angles `(x, y)` in radians to `(lon, lat)` in
degrees.  `np.sqrt` of a negative discriminant yields NaN, which then
propagates through `rs`, `Sx`, `Sy`, `Sz` and both outputs; we model this
by returning `(none, none)` when the discriminant is negative and the
real-arithmetic value otherwise. -/
noncomputable def ABIangle2LonLat (x y H req rpol lon_0_deg : ℝ) :
    Option ℝ × Option ℝ :=
  if ABIdisc x y H req rpol < 0 then (none, none)
  else
    let rs := (-ABIb x y H - Real.sqrt (ABIdisc x y H req rpol)) /
      (2 * ABIa x y req rpol)
    let Sx := rs * Real.cos x * Real.cos y
    let Sy := -rs * Real.sin x
    let Sz := rs * Real.cos x * Real.sin y
    let lat := degreesOf (Real.arctan ((req ^ 2 / rpol ^ 2) *
      (Sz / Real.sqrt ((H - Sx) ^ 2 + Sy ^ 2))))
    let lon := lon_0_deg - degreesOf (Real.arctan (Sy / (H - Sx)))
    (some lon, some lat)

/-! ### Inverse transform: `LonLat2ABIangle` (src lines 46-78) -/

/-- Geocentric latitude from `LonLat2ABIangle`:
`arctan((rpol**2/req**2) * tan(lat))` with `lat` the latitude in radians. -/
noncomputable def latGeo (lat_deg req rpol : ℝ) : ℝ :=
  Real.arctan (rpol ^ 2 / req ^ 2 * Real.tan (radiansOf lat_deg))

/-- Geocentric distance `rc` from `LonLat2ABIangle`:
`rpol / sqrt(1 - e**2 * cos(lat_geo)**2) + z`. -/
noncomputable def rcPoint (lat_deg z req rpol e : ℝ) : ℝ :=
  rpol / Real.sqrt (1 - e ^ 2 * Real.cos (latGeo lat_deg req rpol) ^ 2) + z

/-- Satellite-frame coordinate `Sx = H - rc*cos(lat_geo)*cos(lon - lon_0)`
from `LonLat2ABIangle`. -/
noncomputable def satSx (lon_deg lat_deg z H req rpol e lon_0_deg : ℝ) : ℝ :=
  H - rcPoint lat_deg z req rpol e * Real.cos (latGeo lat_deg req rpol) *
    Real.cos (radiansOf lon_deg - radiansOf lon_0_deg)

/-- Satellite-frame coordinate `Sy = -rc*cos(lat_geo)*sin(lon - lon_0)`
from `LonLat2ABIangle`. -/
noncomputable def satSy (lon_deg lat_deg z H req rpol e lon_0_deg : ℝ) : ℝ :=
  -(rcPoint lat_deg z req rpol e) * Real.cos (latGeo lat_deg req rpol) *
    Real.sin (radiansOf lon_deg - radiansOf lon_0_deg)

/-- Satellite-frame coordinate `Sz = rc*sin(lat_geo)` from
`LonLat2ABIangle`. -/
noncomputable def satSz (lat_deg z req rpol e : ℝ) : ℝ :=
  rcPoint lat_deg z req rpol e * Real.sin (latGeo lat_deg req rpol)

/-- Inverse transform `LonLat2ABIangle(lon_deg, lat_deg, z, H, req, rpol, e,
lon_0_deg)` (src lines 46-78): from geographic coordinates in degrees and an
elevation `z` in meters to the scan-angle pair `(x, y)` in radians, with
`y = arctan(Sz/Sx)` and `x = arcsin(-Sy/sqrt(Sx**2+Sy**2+Sz**2))`.
The commented-out visibility check of src lines 71-77 is not performed,
exactly as in the source. -/
noncomputable def LonLat2ABIangle (lon_deg lat_deg z H req rpol e lon_0_deg : ℝ) :
    ℝ × ℝ :=
  (Real.arcsin (-(satSy lon_deg lat_deg z H req rpol e lon_0_deg) /
      Real.sqrt (satSx lon_deg lat_deg z H req rpol e lon_0_deg ^ 2 +
        satSy lon_deg lat_deg z H req rpol e lon_0_deg ^ 2 +
        satSz lat_deg z req rpol e ^ 2)),
   Real.arctan (satSz lat_deg z req rpol e /
      satSx lon_deg lat_deg z H req rpol e lon_0_deg))

/-- The (commented-out, never executed) visibility condition of src lines
71-77: `H*(H-Sx) < Sy**2 + (req**2/rpol**2)*Sz**2` marks the point as NOT
visible to the satellite. -/
noncomputable def satNotVisible (lon_deg lat_deg z H req rpol e lon_0_deg : ℝ) :
    Prop :=
  H * (H - satSx lon_deg lat_deg z H req rpol e lon_0_deg) <
    satSy lon_deg lat_deg z H req rpol e lon_0_deg ^ 2 +
      req ^ 2 / rpol ^ 2 * satSz lat_deg z req rpol e ^ 2

/-- NaN-propagating form of `LonLat2ABIangle`, as applied by
`make_ortho_map` to an elevation grid whose masked cells hold NaN: a NaN
elevation (`none`) makes `rc`, `Sx`, `Sy`, `Sz` and both scan angles NaN;
a defined elevation gives the real-arithmetic scan angles. -/
noncomputable def LonLat2ABIangleF (lon_deg lat_deg : ℝ) (z : Option ℝ)
    (H req rpol e lon_0_deg : ℝ) : Option ℝ × Option ℝ :=
  match z with
  | none => (none, none)
  | some zv =>
      (some (LonLat2ABIangle lon_deg lat_deg zv H req rpol e lon_0_deg).1,
       some (LonLat2ABIangle lon_deg lat_deg zv H req rpol e lon_0_deg).2)

/-! ### Data model for the pipeline (src lines 125-293) -/

/-- Two-dimensional array of (possibly NaN) doubles, as held by the
`xarray` datasets of the source: a shape plus a cell-value function. -/
structure Grid where
  rows : ℕ
  cols : ℕ
  val : ℕ → ℕ → Option ℝ

/-- Shape of a grid, `(rows, cols)`. -/
def Grid.shape (g : Grid) : ℕ × ℕ := (g.rows, g.cols)

/-- Inputs `make_ortho_map` and `orthorectify_abi_rad` read from the GOES
ABI image file: the four scalar projection parameters of
`goes_imager_projection` (src lines 139-142, 237-245). -/
structure AbiImage where
  semi_major_axis : ℝ
  semi_minor_axis : ℝ
  perspective_point_height : ℝ
  longitude_of_projection_origin : ℝ

/-- Inputs `make_ortho_map` reads from the DEM geotiff (src lines 149-156):
per-cell coordinates and elevations plus the declared no-data sentinel. -/
structure DemRaster where
  rows : ℕ
  cols : ℕ
  x : ℕ → ℝ
  y : ℕ → ℝ
  vals : ℕ → ℕ → ℝ
  nodata : ℝ

/-- The pixel-map dataset `ds` built by `make_ortho_map` (src lines
204-213): the masked elevation grid, the DEM coordinate vectors, the two
scan-angle coordinate grids, the scalar projection attributes of the
metadata dictionary (src lines 166-199), and — once `output_ortho_netcdf`
has run — the added radiance variable `rad` (src line 279), absent
(`none`) at build time. -/
structure OrthoMap where
  elevation : Grid
  longitude : ℕ → ℝ
  latitude : ℕ → ℝ
  dem_px_angle_x : Grid
  dem_px_angle_y : Grid
  longitude_of_projection_origin : ℝ
  semi_major_axis : ℝ
  semi_minor_axis : ℝ
  satellite_height : ℝ
  grs80_eccentricity : ℝ
  rad : Option Grid

/-- DEM masking of src lines 150-151:
`dem.where(dem != dem.nodatavals[0])` then `dem.where(dem != 0)` replaces
the no-data sentinel and exact zeros with NaN and keeps all other values. -/
noncomputable def maskDem (nodata v : ℝ) : Option ℝ :=
  if v = nodata ∨ v = 0 then none else some v

/-- GRS-80 eccentricity constant hard-coded at src line 143. -/
noncomputable def grs80e : ℝ := 0.0818191910435

/-- Builder `make_ortho_map(goes_filepath, dem_filepath, out_filepath)`
(src lines 125-225), with file I/O abstracted to the values read:
extracts `req`, `rpol`, `H = perspective_point_height + semi_major_axis`,
`lon_0` from the ABI image, masks the DEM (no-data sentinel and zeros to
NaN), applies `LonLat2ABIangle` element-wise over the meshgrid
`X[i,j] = dem.x[j]`, `Y[i,j] = dem.y[i]` with the masked `Z`, and bundles
everything into the pixel-map dataset with `rad` absent. -/
noncomputable def make_ortho_map (abi : AbiImage) (dem : DemRaster) : OrthoMap :=
  let req := abi.semi_major_axis
  let rpol := abi.semi_minor_axis
  let H := abi.perspective_point_height + abi.semi_major_axis
  let lon_0 := abi.longitude_of_projection_origin
  let Z : ℕ → ℕ → Option ℝ := fun i j => maskDem dem.nodata (dem.vals i j)
  { elevation := ⟨dem.rows, dem.cols, Z⟩
    longitude := dem.x
    latitude := dem.y
    dem_px_angle_x := ⟨dem.rows, dem.cols, fun i j =>
      (LonLat2ABIangleF (dem.x j) (dem.y i) (Z i j) H req rpol grs80e lon_0).1⟩
    dem_px_angle_y := ⟨dem.rows, dem.cols, fun i j =>
      (LonLat2ABIangleF (dem.x j) (dem.y i) (Z i j) H req rpol grs80e lon_0).2⟩
    longitude_of_projection_origin := lon_0
    semi_major_axis := req
    semi_minor_axis := rpol
    satellite_height := H
    grs80_eccentricity := grs80e
    rad := none }

/-- Packaging step `output_ortho_netcdf(abi_rad_values, pixel_map,
out_filename)` (src lines 264-282): builds the radiance data array and
assigns it into the pixel map via `pixel_map['rad'] = rad_da`, then writes
`pixel_map` to NetCDF.  The in-place dataset mutation is modelled by
returning the updated dataset, which is also the value serialized. -/
def output_ortho_netcdf (abi_rad_values : Grid) (pixel_map : OrthoMap) :
    OrthoMap :=
  { pixel_map with rad := some abi_rad_values }

/-- Resampling step of src line 250,
`abi_image.sel(x=pixel_map.dem_px_angle_x, y=pixel_map.dem_px_angle_y,
method='nearest').Rad.values`: one radiance value per ortho-map cell,
obtained by nearest-neighbour lookup on the scan-angle pair of that cell.
The per-pair lookup itself is performed inside the external `xarray`
library, so it is kept as an explicit parameter `sel`: the grid produced
has the ortho map's shape and feeds `sel` the cell's scan-angle pair. -/
def abiRadValues (sel : Option ℝ → Option ℝ → Option ℝ) (pixel_map : OrthoMap) :
    Grid :=
  ⟨pixel_map.dem_px_angle_x.rows, pixel_map.dem_px_angle_x.cols, fun i j =>
    sel (pixel_map.dem_px_angle_x.val i j) (pixel_map.dem_px_angle_y.val i j)⟩

/-- Resampler `orthorectify_abi_rad(goes_filepath, pixel_map,
out_filename)` (src lines 227-260): prints the projection comparison (no
semantic effect), computes the resampled radiance grid, hands it to
`output_ortho_netcdf` — which mutates `pixel_map` and writes it out — and
then executes `return None`.  The model returns the pair (Python return
value, dataset state after the call); `abi` carries the projection scalars
the printed comparison reads. -/
def orthorectify_abi_rad (sel : Option ℝ → Option ℝ → Option ℝ)
    (abi : AbiImage) (pixel_map : OrthoMap) : Option Grid × OrthoMap :=
  let abi_rad_values := abiRadValues sel pixel_map
  (none, output_ortho_netcdf abi_rad_values pixel_map)

/-- Stub `orthorectify(goes_filepath, orth_map_filepath)` (src lines
288-293): its body is empty apart from `return None`. -/
def orthorectify (goes_filepath orth_map_filepath : String) : Option Grid :=
  none

/-! ### Helper lemmas -/

lemma radiansOf_zero : radiansOf 0 = 0 := by simp [radiansOf]

lemma latGeo_zero (req rpol : ℝ) : latGeo 0 req rpol = 0 := by
  simp [latGeo, radiansOf_zero]

lemma satSy_at_lon0 (lat z H req rpol e lon0 : ℝ) :
    satSy lon0 lat z H req rpol e lon0 = 0 := by
  simp [satSy]

lemma satSz_at_equator (z req rpol e : ℝ) : satSz 0 z req rpol e = 0 := by
  simp [satSz, latGeo_zero]

lemma inverse_at_subsatellite (H req rpol e lon0 : ℝ) :
    LonLat2ABIangle lon0 0 0 H req rpol e lon0 = (0, 0) := by
  simp [LonLat2ABIangle, satSy_at_lon0, satSz_at_equator]

/-! ### Claim theorems -/

/-- C10: the `orthorectify` entry point taking a satellite image path and an
ortho-map file path is an unimplemented stub: it returns `None` for every
input without reading either file or computing anything. -/
theorem orthorectify_stub_returns_none (goes_filepath orth_map_filepath : String) :
    orthorectify goes_filepath orth_map_filepath = none := rfl

/-- C4: whenever the discriminant `b**2 - 4*a*c` of the quadratic in `rs`
is negative (point off the visible Earth disk), `ABIangle2LonLat` returns
NaN longitude and NaN latitude (no exception is raised: the function is
total and yields the no-value result). -/
theorem forward_negative_discriminant_nan (x y H req rpol lon0 : ℝ)
    (h : ABIdisc x y H req rpol < 0) :
    ABIangle2LonLat x y H req rpol lon0 = (none, none) := by
  simp [ABIangle2LonLat, if_pos h]

/-- Witness for C4: at scan angle `x = π/2, y = 0` with `H = 2`,
`req = rpol = 1` the discriminant is negative and the forward transform
returns the NaN pair. -/
theorem forward_negative_discriminant_nan_witness :
    ABIdisc (Real.pi / 2) 0 2 1 1 < 0 ∧
      ABIangle2LonLat (Real.pi / 2) 0 2 1 1 0 = (none, none) := by
  have h : ABIdisc (Real.pi / 2) 0 2 1 1 < 0 := by
    simp [ABIdisc, ABIa, ABIb, ABIc]
  exact ⟨h, forward_negative_discriminant_nan (Real.pi / 2) 0 2 1 1 0 h⟩

/-- C7: for valid Parameters (semi-axes positive and ordered, satellite
outside the ellipsoid, eccentricity in `[0, 1)`, geocentric point radius
below the satellite radius), the inverse transform maps the sub-satellite
point `lon = lon0, lat = 0, z = 0` to the scan-angle origin `(0, 0)`. -/
theorem inverse_subsatellite_origin (H req rpol e lon0 : ℝ)
    (hrpol : 0 < rpol) (hreq : rpol ≤ req) (hH : req < H)
    (he0 : 0 ≤ e) (he1 : e < 1) (hrc : rcPoint 0 0 req rpol e < H) :
    LonLat2ABIangle lon0 0 0 H req rpol e lon0 = (0, 0) :=
  inverse_at_subsatellite H req rpol e lon0

/-- Witness for C7: concrete valid Parameters `H = 3, req = 2, rpol = 1,
e = 0, lon0 = -75` satisfy every hypothesis and the sub-satellite point
maps to the origin. -/
theorem inverse_subsatellite_origin_witness :
    (0 : ℝ) < 1 ∧ (1 : ℝ) ≤ 2 ∧ (2 : ℝ) < 3 ∧ (0 : ℝ) ≤ 0 ∧ (0 : ℝ) < 1 ∧
      rcPoint 0 0 2 1 0 < 3 ∧
      LonLat2ABIangle (-75) 0 0 3 2 1 0 (-75) = (0, 0) := by
  have hrc : rcPoint 0 0 2 1 0 < 3 := by
    simp [rcPoint, latGeo_zero]
  exact ⟨by norm_num, by norm_num, by norm_num, le_refl 0, by norm_num, hrc,
    inverse_subsatellite_origin 3 2 1 0 (-75) (by norm_num) (by norm_num)
      (by norm_num) (le_refl 0) (by norm_num) hrc⟩

/-- C8: the inverse transform performs no visibility filtering: even for a
point satisfying the (commented-out) non-visibility condition
`H*(H-Sx) < Sy**2 + (req**2/rpol**2)*Sz**2`, it returns the scan-angle
pair computed by the formulas, never a rejection or a NaN substitution. -/
theorem inverse_total_no_visibility_check (lon lat z H req rpol e lon0 : ℝ)
    (h : satNotVisible lon lat z H req rpol e lon0) :
    LonLat2ABIangleF lon lat (some z) H req rpol e lon0 =
      (some (LonLat2ABIangle lon lat z H req rpol e lon0).1,
       some (LonLat2ABIangle lon lat z H req rpol e lon0).2) := rfl

/-- Witness for C8: the antipodal equator point `lon = 180` with
`lon0 = 0, lat = 0, z = 0, H = 3, req = rpol = 1, e = 0` is on the far
side of the Earth (the non-visibility condition holds), and the inverse
transform still returns its computed scan-angle pair. -/
theorem inverse_total_no_visibility_check_witness :
    satNotVisible 180 0 0 3 1 1 0 0 ∧
      LonLat2ABIangleF 180 0 (some 0) 3 1 1 0 0 =
        (some (LonLat2ABIangle 180 0 0 3 1 1 0 0).1,
         some (LonLat2ABIangle 180 0 0 3 1 1 0 0).2) := by
  have hrad : radiansOf 180 = Real.pi := by
    simp [radiansOf]
    field_simp
  have h : satNotVisible 180 0 0 3 1 1 0 0 := by
    simp [satNotVisible, satSx, satSy, satSz, latGeo_zero, rcPoint,
      radiansOf_zero, hrad]
  exact ⟨h, inverse_total_no_visibility_check 180 0 0 3 1 1 0 0 h⟩

/-! ### Concrete example values used by counterexamples and witnesses -/

/-- Concrete all-NaN 1x1 grid. -/
def exGrid : Grid := ⟨1, 1, fun _ _ => none⟩

/-- Concrete ABI image metadata record. -/
def exAbi : AbiImage := ⟨2, 1, 1, 0⟩

/-- Concrete 1x1 DEM whose single cell holds elevation 0 (an ocean cell)
with no-data sentinel -9999. -/
def exDem : DemRaster := ⟨1, 1, fun _ => 10, fun _ => 20, fun _ _ => 0, -9999⟩

/-- Concrete ortho-map dataset as produced by the builder: `rad` absent. -/
def exPixelMap : OrthoMap :=
  ⟨exGrid, fun _ => 10, fun _ => 20, exGrid, exGrid, 0, 2, 1, 3, 0, none⟩

/-- C2 counterexample: the packaging step modifies the ortho-map value
passed to it — at the concrete ortho map `exPixelMap` (with `rad` absent),
`output_ortho_netcdf` yields a dataset different from its input, so the
ortho map is not immutable after build. -/
theorem ortho_map_not_immutable_counterexample :
    output_ortho_netcdf exGrid exPixelMap ≠ exPixelMap := by
  intro h
  have hrad := congrArg OrthoMap.rad h
  simp [output_ortho_netcdf, exPixelMap] at hrad

/-- C2 amended: every field of the ortho map other than `rad` — the
elevation grid, both coordinate vectors, both scan-angle grids and all
scalar attributes — is left unchanged by the packaging step; the single
mutation is the insertion of the radiance variable `rad`
(`pixel_map['rad'] = rad_da`, src line 279). -/
theorem output_ortho_netcdf_adds_rad_only (g : Grid) (pm : OrthoMap) :
    (output_ortho_netcdf g pm).elevation = pm.elevation ∧
      (output_ortho_netcdf g pm).longitude = pm.longitude ∧
      (output_ortho_netcdf g pm).latitude = pm.latitude ∧
      (output_ortho_netcdf g pm).dem_px_angle_x = pm.dem_px_angle_x ∧
      (output_ortho_netcdf g pm).dem_px_angle_y = pm.dem_px_angle_y ∧
      (output_ortho_netcdf g pm).longitude_of_projection_origin =
        pm.longitude_of_projection_origin ∧
      (output_ortho_netcdf g pm).semi_major_axis = pm.semi_major_axis ∧
      (output_ortho_netcdf g pm).semi_minor_axis = pm.semi_minor_axis ∧
      (output_ortho_netcdf g pm).satellite_height = pm.satellite_height ∧
      (output_ortho_netcdf g pm).grs80_eccentricity = pm.grs80_eccentricity ∧
      (output_ortho_netcdf g pm).rad = some g :=
  ⟨rfl, rfl, rfl, rfl, rfl, rfl, rfl, rfl, rfl, rfl, rfl⟩

/-- C3 counterexample: at a concrete lookup function, ABI image and ortho
map, the apply-map entry point `orthorectify_abi_rad` hands `None` back to
its caller instead of an Orthorectified Result value (`return None`, src
line 260). -/
theorem orthorectify_abi_rad_returns_none_counterexample :
    (orthorectify_abi_rad (fun _ _ => none) exAbi exPixelMap).1 = none := rfl

/-- C3 amended: `orthorectify_abi_rad` computes the resampled radiance
grid — one lookup per ortho-map cell, so its shape equals the ortho map's
scan-angle grid shape — and writes it into the output dataset together
with the ortho map's coordinates and metadata, but the value handed back
to the caller is `None`; the Orthorectified Result reaches the caller only
through the written file. -/
theorem orthorectify_abi_rad_writes_result_returns_none
    (sel : Option ℝ → Option ℝ → Option ℝ) (abi : AbiImage) (pm : OrthoMap) :
    (orthorectify_abi_rad sel abi pm).1 = none ∧
      (orthorectify_abi_rad sel abi pm).2.rad = some (abiRadValues sel pm) ∧
      (abiRadValues sel pm).shape = pm.dem_px_angle_x.shape ∧
      (orthorectify_abi_rad sel abi pm).2.longitude = pm.longitude ∧
      (orthorectify_abi_rad sel abi pm).2.latitude = pm.latitude :=
  ⟨rfl, rfl, rfl, rfl, rfl⟩

/-- C5: a DEM cell whose elevation equals the declared no-data sentinel or
equals exactly zero is replaced by NaN before the transform, and the
corresponding scan-angle pair (and elevation) in the built ortho map is
NaN, for any ABI projection parameters. -/
theorem make_ortho_map_masks_nodata_and_zero (abi : AbiImage)
    (dem : DemRaster) (i j : ℕ)
    (h : dem.vals i j = dem.nodata ∨ dem.vals i j = 0) :
    (make_ortho_map abi dem).dem_px_angle_x.val i j = none ∧
      (make_ortho_map abi dem).dem_px_angle_y.val i j = none ∧
      (make_ortho_map abi dem).elevation.val i j = none := by
  have hm : maskDem dem.nodata (dem.vals i j) = none := by
    unfold maskDem
    rw [if_pos h]
  refine ⟨?_, ?_, ?_⟩ <;> simp [make_ortho_map, LonLat2ABIangleF, hm]

/-- Witness for C5: the concrete DEM `exDem` has a zero-elevation cell at
`(0, 0)`, and the ortho map built from it holds NaN scan angles and NaN
elevation there. -/
theorem make_ortho_map_masks_nodata_and_zero_witness :
    (exDem.vals 0 0 = exDem.nodata ∨ exDem.vals 0 0 = 0) ∧
      ((make_ortho_map exAbi exDem).dem_px_angle_x.val 0 0 = none ∧
        (make_ortho_map exAbi exDem).dem_px_angle_y.val 0 0 = none ∧
        (make_ortho_map exAbi exDem).elevation.val 0 0 = none) :=
  ⟨Or.inr rfl, make_ortho_map_masks_nodata_and_zero exAbi exDem 0 0 (Or.inr rfl)⟩

lemma radiansOf_sub (a b : ℝ) : radiansOf a - radiansOf b = radiansOf (a - b) := by
  simp [radiansOf]
  ring

lemma degreesOf_radiansOf (t : ℝ) : degreesOf (radiansOf t) = t := by
  unfold degreesOf radiansOf
  field_simp

set_option maxHeartbeats 1600000 in
/-- C6: for spherical Parameters (`req = rpol > 0`, `e = 0`, satellite
outside the sphere) and any ground point with `z = 0` strictly inside the
visible disk — latitude and longitude offset under 90 degrees, and
satisfying the strict visibility inequality `H*(H - Sx) > rpol**2`
(equivalently, the point is strictly on the near side of the tangency
circle) — feeding the inverse transform's scan-angle pair back through the
forward transform recovers exactly the original `(lon, lat)` (the
real-arithmetic model recovers it exactly, hence within any
floating-point tolerance). -/
theorem spherical_roundtrip_in_disk (H req rpol lon0 lon lat : ℝ)
    (hrpol : 0 < rpol) (hsph : req = rpol) (hH : rpol < H)
    (hlat : |radiansOf lat| < Real.pi / 2)
    (hlon : |radiansOf lon - radiansOf lon0| < Real.pi / 2)
    (hdisk : rpol ^ 2 < H * (H - satSx lon lat 0 H req rpol 0 lon0)) :
    ABIangle2LonLat (LonLat2ABIangle lon lat 0 H req rpol 0 lon0).1
      (LonLat2ABIangle lon lat 0 H req rpol 0 lon0).2 H req rpol lon0 =
      (some lon, some lat) := by
  subst req
  obtain ⟨hlat1, hlat2⟩ := abs_lt.1 hlat
  obtain ⟨hlon1, hlon2⟩ := abs_lt.1 hlon
  have hcosθ : 0 < Real.cos (radiansOf lat) :=
    Real.cos_pos_of_mem_Ioo ⟨hlat1, hlat2⟩
  have hcosΔ : 0 < Real.cos (radiansOf lon - radiansOf lon0) :=
    Real.cos_pos_of_mem_Ioo ⟨hlon1, hlon2⟩
  have hgeo : latGeo lat rpol rpol = radiansOf lat := by
    unfold latGeo
    rw [div_self (pow_ne_zero 2 hrpol.ne'), one_mul]
    exact Real.arctan_tan hlat1 hlat2
  have hrc : rcPoint lat 0 rpol rpol 0 = rpol := by
    unfold rcPoint
    simp
  have hSxeq : satSx lon lat 0 H rpol rpol 0 lon0 = H -
      rpol * Real.cos (radiansOf lat) *
        Real.cos (radiansOf lon - radiansOf lon0) := by
    unfold satSx
    rw [hrc, hgeo]
  have hSyeq : satSy lon lat 0 H rpol rpol 0 lon0 =
      -rpol * Real.cos (radiansOf lat) *
        Real.sin (radiansOf lon - radiansOf lon0) := by
    unfold satSy
    rw [hrc, hgeo]
  have hSzeq : satSz lat 0 rpol rpol 0 = rpol * Real.sin (radiansOf lat) := by
    unfold satSz
    rw [hrc, hgeo]
  set Sx := H - rpol * Real.cos (radiansOf lat) *
    Real.cos (radiansOf lon - radiansOf lon0) with hSxdef
  set Sy := -rpol * Real.cos (radiansOf lat) *
    Real.sin (radiansOf lon - radiansOf lon0) with hSydef
  set Sz := rpol * Real.sin (radiansOf lat) with hSzdef
  rw [hSxeq] at hdisk
  have hSxpos : 0 < Sx := by
    rw [hSxdef]
    have h1 : Real.cos (radiansOf lat) *
        Real.cos (radiansOf lon - radiansOf lon0) ≤ 1 :=
      mul_le_one (Real.cos_le_one _) hcosΔ.le (Real.cos_le_one _)
    have h2 : rpol * (Real.cos (radiansOf lat) *
        Real.cos (radiansOf lon - radiansOf lon0)) ≤ rpol * 1 :=
      mul_le_mul_of_nonneg_left h1 hrpol.le
    rw [mul_one] at h2
    linarith only [h2, hH]
  set d2 := Sx ^ 2 + Sy ^ 2 + Sz ^ 2 with hd2def
  have hd2eq : d2 = 2 * H * Sx - H ^ 2 + rpol ^ 2 := by
    rw [hd2def, hSxdef, hSydef, hSzdef]
    linear_combination (rpol * Real.cos (radiansOf lat)) ^ 2 *
        Real.sin_sq_add_cos_sq (radiansOf lon - radiansOf lon0) +
      rpol ^ 2 * Real.sin_sq_add_cos_sq (radiansOf lat)
  have hd2pos : 0 < d2 := by
    rw [hd2def]
    exact add_pos_of_pos_of_nonneg
      (add_pos_of_pos_of_nonneg (pow_pos hSxpos 2) (sq_nonneg Sy)) (sq_nonneg Sz)
  set d := Real.sqrt d2 with hddef
  have hdpos : 0 < d := Real.sqrt_pos.2 hd2pos
  have hdne : d ≠ 0 := hdpos.ne'
  have hdsq : d ^ 2 = d2 := Real.sq_sqrt hd2pos.le
  have hx1 : (LonLat2ABIangle lon lat 0 H rpol rpol 0 lon0).1 =
      Real.arcsin (-Sy / d) := by
    simp only [LonLat2ABIangle]
    rw [hSxeq, hSyeq, hSzeq, ← hd2def, ← hddef]
  have hy1 : (LonLat2ABIangle lon lat 0 H rpol rpol 0 lon0).2 =
      Real.arctan (Sz / Sx) := by
    simp only [LonLat2ABIangle]
    rw [hSxeq, hSzeq]
  have hSy2le : Sy ^ 2 ≤ d2 := by
    rw [hd2def]
    linarith only [sq_nonneg Sx, sq_nonneg Sz]
  have habs : |(-Sy) / d| ≤ 1 := by
    rw [abs_div, abs_of_pos hdpos, div_le_one hdpos, abs_neg,
      ← Real.sqrt_sq_eq_abs, hddef]
    exact Real.sqrt_le_sqrt hSy2le
  have hsinx : Real.sin (Real.arcsin (-Sy / d)) = -Sy / d :=
    Real.sin_arcsin (abs_le.1 habs).1 (abs_le.1 habs).2
  set q2 := Sx ^ 2 + Sz ^ 2 with hq2def
  have hq2pos : 0 < q2 := by
    rw [hq2def]
    exact add_pos_of_pos_of_nonneg (pow_pos hSxpos 2) (sq_nonneg Sz)
  set q := Real.sqrt q2 with hqdef
  have hqpos : 0 < q := Real.sqrt_pos.2 hq2pos
  have hqne : q ≠ 0 := hqpos.ne'
  have hq2d2 : 1 - (-Sy / d) ^ 2 = q2 / d2 := by
    rw [div_pow, neg_sq, hdsq, hq2def, hd2def]
    rw [eq_div_iff (by rw [← hd2def]; exact hd2pos.ne'), sub_mul,
      div_mul_cancel₀ _ (by rw [← hd2def]; exact hd2pos.ne')]
    ring
  have hcosx : Real.cos (Real.arcsin (-Sy / d)) = q / d := by
    rw [Real.cos_arcsin, hq2d2, Real.sqrt_div hq2pos.le, ← hqdef, ← hddef]
  have hq2Sx : 1 + (Sz / Sx) ^ 2 = q2 / Sx ^ 2 := by
    rw [div_pow, hq2def]
    rw [eq_div_iff (pow_ne_zero 2 hSxpos.ne'), add_mul,
      div_mul_cancel₀ _ (pow_ne_zero 2 hSxpos.ne')]
    ring
  have hcosy : Real.cos (Real.arctan (Sz / Sx)) = Sx / q := by
    rw [Real.cos_arctan, hq2Sx, Real.sqrt_div hq2pos.le,
      Real.sqrt_sq hSxpos.le, ← hqdef, one_div_div]
  have hsiny : Real.sin (Real.arctan (Sz / Sx)) = Sz / q := by
    rw [Real.sin_arctan, hq2Sx, Real.sqrt_div hq2pos.le,
      Real.sqrt_sq hSxpos.le, ← hqdef]
    rw [div_div_div_cancel_right₀]
    exact hSxpos.ne'
  have hcc : Real.cos (Real.arcsin (-Sy / d)) *
      Real.cos (Real.arctan (Sz / Sx)) = Sx / d := by
    rw [hcosx, hcosy, div_mul_div_comm,
      div_eq_div_iff (mul_ne_zero hdne hqne) hdne]
    ring
  have hcs : Real.cos (Real.arcsin (-Sy / d)) *
      Real.sin (Real.arctan (Sz / Sx)) = Sz / d := by
    rw [hcosx, hsiny, div_mul_div_comm,
      div_eq_div_iff (mul_ne_zero hdne hqne) hdne]
    ring
  have hA : ABIa (Real.arcsin (-Sy / d)) (Real.arctan (Sz / Sx)) rpol rpol
      = 1 := by
    unfold ABIa
    rw [div_self (pow_ne_zero 2 hrpol.ne'), one_mul,
      Real.cos_sq_add_sin_sq, mul_one, Real.sin_sq_add_cos_sq]
  have hB : ABIb (Real.arcsin (-Sy / d)) (Real.arctan (Sz / Sx)) H
      = -2 * H * (Sx / d) := by
    unfold ABIb
    rw [mul_assoc, hcc]
  set K := H ^ 2 - rpol ^ 2 - H * Sx with hKdef
  have hKpos : 0 < K := by
    rw [hKdef]
    have h := hdisk
    rw [mul_sub] at h
    linarith only [h]
  have hdisc : ABIdisc (Real.arcsin (-Sy / d)) (Real.arctan (Sz / Sx))
      H rpol rpol = 4 * K ^ 2 / d2 := by
    unfold ABIdisc ABIc
    rw [hA, hB, mul_one]
    have e1 : (-2 * H * (Sx / d)) ^ 2 = 4 * H ^ 2 * Sx ^ 2 / d2 := by
      rw [mul_pow, div_pow, hdsq]
      ring
    rw [e1, hKdef, eq_div_iff hd2pos.ne', sub_mul,
      div_mul_cancel₀ _ hd2pos.ne']
    linear_combination (-4 * (H ^ 2 - rpol ^ 2)) * hd2eq
  have hnotneg : ¬ ABIdisc (Real.arcsin (-Sy / d)) (Real.arctan (Sz / Sx))
      H rpol rpol < 0 := by
    rw [not_lt, hdisc]
    exact div_nonneg (by positivity) hd2pos.le
  have hsqrtdisc : Real.sqrt (ABIdisc (Real.arcsin (-Sy / d))
      (Real.arctan (Sz / Sx)) H rpol rpol) = 2 * K / d := by
    rw [hdisc, show (4 : ℝ) * K ^ 2 / d2 = (2 * K / d) ^ 2 from by
      rw [div_pow, hdsq]; ring]
    exact Real.sqrt_sq (div_nonneg (by linarith only [hKpos]) hdpos.le)
  have hKd2 : H * Sx - K = d ^ 2 := by
    rw [hKdef, hdsq, hd2eq]
    ring
  have hrs : (-ABIb (Real.arcsin (-Sy / d)) (Real.arctan (Sz / Sx)) H -
      Real.sqrt (ABIdisc (Real.arcsin (-Sy / d)) (Real.arctan (Sz / Sx))
        H rpol rpol)) /
      (2 * ABIa (Real.arcsin (-Sy / d)) (Real.arctan (Sz / Sx)) rpol rpol)
      = d := by
    rw [hB, hsqrtdisc, hA, mul_one]
    have e3 : -(-2 * H * (Sx / d)) - 2 * K / d = (2 * H * Sx - 2 * K) / d := by
      ring
    rw [e3, div_div, div_eq_iff (mul_ne_zero hdne two_ne_zero)]
    linear_combination 2 * hKd2
  have hpSx : d * Real.cos (Real.arcsin (-Sy / d)) *
      Real.cos (Real.arctan (Sz / Sx)) = Sx := by
    rw [mul_assoc, hcc, show d * (Sx / d) = d * Sx / d from by ring,
      mul_div_cancel_left₀ _ hdne]
  have hpSy : -d * Real.sin (Real.arcsin (-Sy / d)) = Sy := by
    rw [hsinx, show -d * (-Sy / d) = d * Sy / d from by ring,
      mul_div_cancel_left₀ _ hdne]
  have hpSz : d * Real.cos (Real.arcsin (-Sy / d)) *
      Real.sin (Real.arctan (Sz / Sx)) = Sz := by
    rw [mul_assoc, hcs, show d * (Sz / d) = d * Sz / d from by ring,
      mul_div_cancel_left₀ _ hdne]
  have hHSx : H - Sx = rpol * Real.cos (radiansOf lat) *
      Real.cos (radiansOf lon - radiansOf lon0) := by
    rw [hSxdef]
    ring
  have hlonF : lon0 - degreesOf (Real.arctan (Sy / (H - Sx))) = lon := by
    rw [hHSx, hSydef]
    have h1 : -rpol * Real.cos (radiansOf lat) *
        Real.sin (radiansOf lon - radiansOf lon0) /
        (rpol * Real.cos (radiansOf lat) *
          Real.cos (radiansOf lon - radiansOf lon0)) =
        Real.tan (-(radiansOf lon - radiansOf lon0)) := by
      rw [Real.tan_neg, Real.tan_eq_sin_div_cos, ← neg_div,
        div_eq_div_iff
          (mul_ne_zero (mul_pos hrpol hcosθ).ne' hcosΔ.ne') hcosΔ.ne']
      ring
    rw [h1, Real.arctan_tan (by linarith only [hlon2]) (by linarith only [hlon1])]
    have h2 : degreesOf (-(radiansOf lon - radiansOf lon0)) = lon0 - lon := by
      rw [neg_sub, radiansOf_sub, degreesOf_radiansOf]
    rw [h2]
    ring
  have hlatF : degreesOf (Real.arctan (rpol ^ 2 / rpol ^ 2 *
      (Sz / Real.sqrt ((H - Sx) ^ 2 + Sy ^ 2)))) = lat := by
    rw [div_self (pow_ne_zero 2 hrpol.ne'), one_mul]
    have h3 : (H - Sx) ^ 2 + Sy ^ 2 =
        (rpol * Real.cos (radiansOf lat)) ^ 2 := by
      rw [hHSx, hSydef]
      linear_combination (rpol * Real.cos (radiansOf lat)) ^ 2 *
        Real.sin_sq_add_cos_sq (radiansOf lon - radiansOf lon0)
    have h4 : Sz / (rpol * Real.cos (radiansOf lat)) =
        Real.tan (radiansOf lat) := by
      rw [hSzdef, Real.tan_eq_sin_div_cos,
        div_eq_div_iff (mul_pos hrpol hcosθ).ne' hcosθ.ne']
      ring
    rw [h3, Real.sqrt_sq (mul_pos hrpol hcosθ).le, h4,
      Real.arctan_tan hlat1 hlat2]
    exact degreesOf_radiansOf lat
  rw [hx1, hy1]
  simp only [ABIangle2LonLat, if_neg hnotneg]
  rw [hrs, hpSx, hpSy, hpSz, hlonF, hlatF]


/-- Witness for C6: with spherical Parameters `H = 3, req = rpol = 1,
lon0 = 0` the equator point `lon = 60, lat = 0` is strictly inside the
visible disk (`H*(H - Sx) = 3/2 > 1 = rpol**2`), and the round trip
recovers `(60, 0)` exactly. -/
theorem spherical_roundtrip_in_disk_witness :
    (0 : ℝ) < 1 ∧ (1 : ℝ) = 1 ∧ (1 : ℝ) < 3 ∧
      |radiansOf 0| < Real.pi / 2 ∧
      |radiansOf 60 - radiansOf 0| < Real.pi / 2 ∧
      (1 : ℝ) ^ 2 < 3 * (3 - satSx 60 0 0 3 1 1 0 0) ∧
      ABIangle2LonLat (LonLat2ABIangle 60 0 0 3 1 1 0 0).1
        (LonLat2ABIangle 60 0 0 3 1 1 0 0).2 3 1 1 0 =
        (some 60, some 0) := by
  have hr60 : radiansOf 60 = Real.pi / 3 := by
    unfold radiansOf
    ring
  have hlat0 : |radiansOf (0 : ℝ)| < Real.pi / 2 := by
    rw [radiansOf_zero, abs_zero]
    linarith [Real.pi_pos]
  have hlon60 : |radiansOf 60 - radiansOf (0 : ℝ)| < Real.pi / 2 := by
    rw [radiansOf_zero, hr60, sub_zero,
      abs_of_pos (by linarith [Real.pi_pos] : (0 : ℝ) < Real.pi / 3)]
    linarith [Real.pi_pos]
  have hsx : satSx 60 0 0 3 1 1 0 0 = 3 - 1 / 2 := by
    unfold satSx
    rw [latGeo_zero, radiansOf_zero, hr60, sub_zero, Real.cos_pi_div_three]
    have hrc1 : rcPoint 0 0 1 1 0 = 1 := by
      simp [rcPoint, latGeo_zero]
    rw [hrc1]
    norm_num
  have hdisk : (1 : ℝ) ^ 2 < 3 * (3 - satSx 60 0 0 3 1 1 0 0) := by
    rw [hsx]
    norm_num
  exact ⟨by norm_num, rfl, by norm_num, hlat0, hlon60, hdisk,
    spherical_roundtrip_in_disk 3 1 1 0 60 0 (by norm_num) rfl (by norm_num)
      hlat0 hlon60 hdisk⟩

/-! ### Equator geometry lemmas used for the scan-angle monotonicity claim -/

lemma radiansOf_abs (d : ℝ) : |radiansOf d| = radiansOf |d| := by
  have hpi : 0 < Real.pi / 180 := by positivity
  simp [radiansOf, abs_mul, abs_of_pos hpi]

lemma radiansOf_nonneg {d : ℝ} (h : 0 ≤ d) : 0 ≤ radiansOf d := by
  have hpi : 0 < Real.pi / 180 := by positivity
  exact mul_nonneg h hpi.le

lemma radiansOf_lt_radiansOf {a b : ℝ} (h : a < b) : radiansOf a < radiansOf b := by
  have hpi : 0 < Real.pi / 180 := by positivity
  exact mul_lt_mul_of_pos_right h hpi

lemma inverse_x_at_equator (lon H req rpol e lon0 : ℝ) :
    (LonLat2ABIangle lon 0 0 H req rpol e lon0).1 =
      Real.arcsin (rcPoint 0 0 req rpol e *
          Real.sin (radiansOf lon - radiansOf lon0) /
        Real.sqrt ((H - rcPoint 0 0 req rpol e *
            Real.cos (radiansOf lon - radiansOf lon0)) ^ 2 +
          (rcPoint 0 0 req rpol e *
            Real.sin (radiansOf lon - radiansOf lon0)) ^ 2)) := by
  have hSy : satSy lon 0 0 H req rpol e lon0 =
      -(rcPoint 0 0 req rpol e * Real.sin (radiansOf lon - radiansOf lon0)) := by
    simp [satSy, latGeo_zero]
  have hSx : satSx lon 0 0 H req rpol e lon0 =
      H - rcPoint 0 0 req rpol e * Real.cos (radiansOf lon - radiansOf lon0) := by
    simp [satSx, latGeo_zero]
  have hSz : satSz 0 0 req rpol e = 0 := satSz_at_equator 0 req rpol e
  simp [LonLat2ABIangle, hSy, hSx, hSz]

lemma equator_ratio_lt (r H d1 d2 : ℝ) (hr : 0 < r) (hH : r < H)
    (h1 : 0 ≤ d1) (h12 : d1 < d2) (h2 : d2 ≤ Real.arccos (r / H)) :
    r * Real.sin d1 / Real.sqrt ((H - r * Real.cos d1) ^ 2 + (r * Real.sin d1) ^ 2) <
      r * Real.sin d2 / Real.sqrt ((H - r * Real.cos d2) ^ 2 + (r * Real.sin d2) ^ 2) := by
  have hH0 : 0 < H := hr.trans hH
  have hrH1 : r / H ≤ 1 := (div_le_one hH0).2 hH.le
  have hrH0 : 0 ≤ r / H := by positivity
  have harc : Real.arccos (r / H) ≤ Real.pi / 2 := Real.arccos_le_pi_div_two.2 hrH0
  have hd2half : d2 ≤ Real.pi / 2 := h2.trans harc
  have hd2pos : 0 < d2 := h1.trans_lt h12
  have hd2pi : d2 < Real.pi := hd2half.trans_lt (by linarith [Real.pi_pos])
  have hs2 : 0 < Real.sin d2 := Real.sin_pos_of_pos_of_lt_pi hd2pos hd2pi
  have hs1 : 0 ≤ Real.sin d1 := Real.sin_nonneg_of_nonneg_of_le_pi h1 (by linarith)
  have hc12 : Real.cos d2 < Real.cos d1 :=
    Real.cos_lt_cos_of_nonneg_of_le_pi h1 (by linarith) h12
  have hc2 : r / H ≤ Real.cos d2 := by
    have h' := Real.cos_le_cos_of_nonneg_of_le_pi hd2pos.le
      (Real.arccos_le_pi (r / H)) h2
    rwa [Real.cos_arccos (by linarith : (-1 : ℝ) ≤ r / H) hrH1] at h'
  have hc2H : r ≤ H * Real.cos d2 := by
    rw [div_le_iff hH0] at hc2
    linarith
  have hc1le : Real.cos d1 ≤ 1 := Real.cos_le_one d1
  have hc2le : Real.cos d2 ≤ 1 := Real.cos_le_one d2
  have hA1 : (H - r * Real.cos d1) ^ 2 + (r * Real.sin d1) ^ 2
      = H ^ 2 + r ^ 2 - 2 * H * r * Real.cos d1 := by
    linear_combination r ^ 2 * Real.sin_sq d1
  have hA2 : (H - r * Real.cos d2) ^ 2 + (r * Real.sin d2) ^ 2
      = H ^ 2 + r ^ 2 - 2 * H * r * Real.cos d2 := by
    linear_combination r ^ 2 * Real.sin_sq d2
  have hN1 : (r * Real.sin d1) ^ 2 = r ^ 2 * (1 - Real.cos d1 ^ 2) := by
    linear_combination r ^ 2 * Real.sin_sq d1
  have hN2 : (r * Real.sin d2) ^ 2 = r ^ 2 * (1 - Real.cos d2 ^ 2) := by
    linear_combination r ^ 2 * Real.sin_sq d2
  have hApos1 : 0 < H ^ 2 + r ^ 2 - 2 * H * r * Real.cos d1 := by
    nlinarith [pow_pos (sub_pos.2 hH) 2,
      mul_nonneg (mul_pos hH0 hr).le (sub_nonneg.2 hc1le)]
  have hApos2 : 0 < H ^ 2 + r ^ 2 - 2 * H * r * Real.cos d2 := by
    nlinarith [pow_pos (sub_pos.2 hH) 2,
      mul_nonneg (mul_pos hH0 hr).le (sub_nonneg.2 hc2le)]
  have hHc2 : 0 < H - r * Real.cos d2 := by
    have hrc : r * Real.cos d2 ≤ r := mul_le_of_le_one_right hr.le hc2le
    linarith
  have hterm1 : 0 < (H ^ 2 + r ^ 2 - 2 * H * r * Real.cos d2) *
      (Real.cos d1 - Real.cos d2) := mul_pos hApos2 (sub_pos.2 hc12)
  have hterm2 : 0 ≤ (H * Real.cos d2 - r) * (H - r * Real.cos d2) :=
    mul_nonneg (sub_nonneg.2 hc2H) hHc2.le
  have hphi : 0 < (H ^ 2 + r ^ 2) * (Real.cos d1 + Real.cos d2)
      - 2 * H * r * (1 + Real.cos d1 * Real.cos d2) := by
    have hiden : (H ^ 2 + r ^ 2) * (Real.cos d1 + Real.cos d2)
        - 2 * H * r * (1 + Real.cos d1 * Real.cos d2)
        = (H ^ 2 + r ^ 2 - 2 * H * r * Real.cos d2) *
            (Real.cos d1 - Real.cos d2)
          + 2 * ((H * Real.cos d2 - r) * (H - r * Real.cos d2)) := by ring
    rw [hiden]
    linarith
  have hkey : (r * Real.sin d1) ^ 2 *
      ((H - r * Real.cos d2) ^ 2 + (r * Real.sin d2) ^ 2)
      < (r * Real.sin d2) ^ 2 *
      ((H - r * Real.cos d1) ^ 2 + (r * Real.sin d1) ^ 2) := by
    rw [hA1, hA2, hN1, hN2]
    have hpos : 0 < r ^ 2 * (Real.cos d1 - Real.cos d2) *
        ((H ^ 2 + r ^ 2) * (Real.cos d1 + Real.cos d2)
          - 2 * H * r * (1 + Real.cos d1 * Real.cos d2)) :=
      mul_pos (mul_pos (pow_pos hr 2) (sub_pos.2 hc12)) hphi
    have hiden2 : r ^ 2 * (1 - Real.cos d2 ^ 2) *
          (H ^ 2 + r ^ 2 - 2 * H * r * Real.cos d1)
        - r ^ 2 * (1 - Real.cos d1 ^ 2) *
          (H ^ 2 + r ^ 2 - 2 * H * r * Real.cos d2)
        = r ^ 2 * (Real.cos d1 - Real.cos d2) *
        ((H ^ 2 + r ^ 2) * (Real.cos d1 + Real.cos d2)
          - 2 * H * r * (1 + Real.cos d1 * Real.cos d2)) := by ring
    linarith
  have hD1 : 0 < (H - r * Real.cos d1) ^ 2 + (r * Real.sin d1) ^ 2 := by
    rw [hA1]
    exact hApos1
  have hD2 : 0 < (H - r * Real.cos d2) ^ 2 + (r * Real.sin d2) ^ 2 := by
    rw [hA2]
    exact hApos2
  have hf2 : 0 < r * Real.sin d2 /
      Real.sqrt ((H - r * Real.cos d2) ^ 2 + (r * Real.sin d2) ^ 2) :=
    div_pos (mul_pos hr hs2) (Real.sqrt_pos.2 hD2)
  have hsq : (r * Real.sin d1 /
      Real.sqrt ((H - r * Real.cos d1) ^ 2 + (r * Real.sin d1) ^ 2)) ^ 2 <
      (r * Real.sin d2 /
      Real.sqrt ((H - r * Real.cos d2) ^ 2 + (r * Real.sin d2) ^ 2)) ^ 2 := by
    rw [div_pow, div_pow, Real.sq_sqrt hD1.le, Real.sq_sqrt hD2.le]
    exact (div_lt_div_iff hD1 hD2).2 hkey
  exact lt_of_pow_lt_pow_left 2 hf2.le hsq

lemma equator_ratio_le_one (r H d : ℝ) (hr : 0 < r) (hH : r < H) :
    r * Real.sin d / Real.sqrt ((H - r * Real.cos d) ^ 2 + (r * Real.sin d) ^ 2)
      ≤ 1 := by
  have hrc : r * Real.cos d ≤ r := mul_le_of_le_one_right hr.le (Real.cos_le_one d)
  have hDpos : 0 < (H - r * Real.cos d) ^ 2 + (r * Real.sin d) ^ 2 :=
    add_pos_of_pos_of_nonneg (pow_pos (by linarith) 2) (sq_nonneg _)
  rw [div_le_one (Real.sqrt_pos.2 hDpos)]
  exact Real.le_sqrt_of_sq_le (le_add_of_nonneg_left (sq_nonneg _))

lemma equator_ratio_nonneg (r H d : ℝ) (hr : 0 ≤ r) (h0 : 0 ≤ d)
    (hpi : d ≤ Real.pi) :
    0 ≤ r * Real.sin d /
      Real.sqrt ((H - r * Real.cos d) ^ 2 + (r * Real.sin d) ^ 2) :=
  div_nonneg (mul_nonneg hr (Real.sin_nonneg_of_nonneg_of_le_pi h0 hpi))
    (Real.sqrt_nonneg _)

lemma abs_arcsin (t : ℝ) : |Real.arcsin t| = Real.arcsin |t| := by
  rcases le_or_lt 0 t with h | h
  · rw [abs_of_nonneg h, abs_of_nonneg (Real.arcsin_nonneg.2 h)]
  · rw [abs_of_neg h, abs_of_neg (Real.arcsin_lt_zero.2 h), ← Real.arcsin_neg]

lemma equator_ratio_abs (r H D : ℝ) (hr : 0 ≤ r) (hD : |D| ≤ Real.pi) :
    |r * Real.sin D / Real.sqrt ((H - r * Real.cos D) ^ 2 + (r * Real.sin D) ^ 2)|
      = r * Real.sin |D| /
        Real.sqrt ((H - r * Real.cos |D|) ^ 2 + (r * Real.sin |D|) ^ 2) := by
  rcases abs_cases D with ⟨h1, h2⟩ | ⟨h1, h2⟩
  · rw [h1]
    exact abs_of_nonneg (equator_ratio_nonneg r H D hr h2 (h1 ▸ hD))
  · have hpiD : -Real.pi ≤ D := by
      rw [h1] at hD
      linarith
    have hsin : Real.sin D ≤ 0 :=
      Real.sin_nonpos_of_nonnpos_of_neg_pi_le h2.le hpiD
    have hnum : r * Real.sin D ≤ 0 := mul_nonpos_of_nonneg_of_nonpos hr hsin
    rw [h1, Real.sin_neg, Real.cos_neg, abs_div, abs_of_nonpos hnum,
      abs_of_nonneg (Real.sqrt_nonneg _)]
    rw [mul_neg, neg_sq]

/-- C9: holding latitude 0, elevation 0 and Parameters fixed (point radius
`rc` positive and below the satellite radius `H`), the scan angle `x`
computed by the inverse transform moves strictly monotonically away from 0
as `|lon - lon0|` increases, up to the visibility limit — formalised as
the tangency angle `arccos(rc/H)` of the equatorial circle of radius
`rc = rpol/sqrt(1-e**2)` seen from the satellite. -/
theorem inverse_x_monotone_in_lon_offset (H req rpol e lon0 lon1 lon2 : ℝ)
    (hrc0 : 0 < rcPoint 0 0 req rpol e) (hrcH : rcPoint 0 0 req rpol e < H)
    (h12 : |lon1 - lon0| < |lon2 - lon0|)
    (hvis : radiansOf |lon2 - lon0| ≤
      Real.arccos (rcPoint 0 0 req rpol e / H)) :
    |(LonLat2ABIangle lon1 0 0 H req rpol e lon0).1| <
      |(LonLat2ABIangle lon2 0 0 H req rpol e lon0).1| := by
  have hpi2 : radiansOf |lon2 - lon0| ≤ Real.pi :=
    hvis.trans (Real.arccos_le_pi _)
  have hpi1 : radiansOf |lon1 - lon0| ≤ Real.pi :=
    (radiansOf_lt_radiansOf h12).le.trans hpi2
  have habs1 : |radiansOf lon1 - radiansOf lon0| = radiansOf |lon1 - lon0| := by
    rw [radiansOf_sub, radiansOf_abs]
  have habs2 : |radiansOf lon2 - radiansOf lon0| = radiansOf |lon2 - lon0| := by
    rw [radiansOf_sub, radiansOf_abs]
  have ha1 : 0 ≤ radiansOf |lon1 - lon0| := radiansOf_nonneg (abs_nonneg _)
  have ha2 : 0 ≤ radiansOf |lon2 - lon0| := radiansOf_nonneg (abs_nonneg _)
  rw [inverse_x_at_equator, inverse_x_at_equator, abs_arcsin, abs_arcsin,
    equator_ratio_abs _ _ _ hrc0.le (by rw [habs1]; exact hpi1),
    equator_ratio_abs _ _ _ hrc0.le (by rw [habs2]; exact hpi2),
    habs1, habs2]
  have hlt := equator_ratio_lt (rcPoint 0 0 req rpol e) H
    (radiansOf |lon1 - lon0|) (radiansOf |lon2 - lon0|) hrc0 hrcH ha1
    (radiansOf_lt_radiansOf h12) hvis
  exact Real.strictMonoOn_arcsin
    (Set.mem_Icc.2 ⟨le_trans (by norm_num)
        (equator_ratio_nonneg _ H _ hrc0.le ha1 hpi1),
      equator_ratio_le_one _ H _ hrc0 hrcH⟩)
    (Set.mem_Icc.2 ⟨le_trans (by norm_num)
        (equator_ratio_nonneg _ H _ hrc0.le ha2 hpi2),
      equator_ratio_le_one _ H _ hrc0 hrcH⟩)
    hlt

/-- Witness for C9: with `H = 2, req = rpol = 1, e = 0, lon0 = 0` (so
`rc = 1` and the visibility limit is `arccos(1/2) = π/3`, i.e. 60
degrees of longitude offset), the scan angle at `lon = 0` is strictly
closer to 0 than at `lon = 60`. -/
theorem inverse_x_monotone_in_lon_offset_witness :
    0 < rcPoint 0 0 1 1 0 ∧ rcPoint 0 0 1 1 0 < 2 ∧
      |(0 : ℝ) - 0| < |(60 : ℝ) - 0| ∧
      radiansOf |(60 : ℝ) - 0| ≤ Real.arccos (rcPoint 0 0 1 1 0 / 2) ∧
      |(LonLat2ABIangle 0 0 0 2 1 1 0 0).1| <
        |(LonLat2ABIangle 60 0 0 2 1 1 0 0).1| := by
  have hrc1 : rcPoint 0 0 1 1 0 = 1 := by
    simp [rcPoint, latGeo_zero]
  have h0 : (0 : ℝ) < rcPoint 0 0 1 1 0 := by rw [hrc1]; norm_num
  have h1 : rcPoint 0 0 1 1 0 < 2 := by rw [hrc1]; norm_num
  have h2 : |(0 : ℝ) - 0| < |(60 : ℝ) - 0| := by norm_num
  have h3 : radiansOf |(60 : ℝ) - 0| ≤ Real.arccos (rcPoint 0 0 1 1 0 / 2) := by
    have harc : Real.arccos ((1 : ℝ) / 2) = Real.pi / 3 := by
      rw [← Real.cos_pi_div_three]
      exact Real.arccos_cos (by positivity) (by linarith [Real.pi_pos])
    have hr60 : radiansOf |(60 : ℝ) - 0| = Real.pi / 3 := by
      rw [show |(60 : ℝ) - 0| = 60 by norm_num]
      unfold radiansOf
      ring
    rw [hrc1, hr60, harc]
  exact ⟨h0, h1, h2, h3,
    inverse_x_monotone_in_lon_offset 2 1 1 0 0 0 60 h0 h1 h2 h3⟩

end GoesOrtho
